import Mathlib

/-!
Verification of the rice price forecasting service.

The repository consists of an HTTP API layer (`src/api/forecast.py`) and a
dashboard (`src/app.py`), both of which call into the core package
`mli_rice` (feature construction, the multi-step forecast engine
`multi_step_forecast`, and the advisory rules).  The API layer and the
dashboard wiring are embedded here directly from their sources; the core
engine, whose source file is not part of the repository snapshot, is
modelled from the specification (each such definition carries a
`Modelled from the spec:` doc comment).

Dates are truncated to months throughout (the data model stores
first-of-month dates), prices are modelled as exact rationals, and the
fitted regression pipeline is an opaque function parameter, as the
specification treats the predictor as an external, already-fitted object.
-/

namespace RiceForecast

/-- A calendar month: a year together with a month number (1..12 in
well-formed dates).  The system truncates every date to its month, so the
day component is not represented. -/
structure YM where
  year : Nat
  month : Nat
deriving DecidableEq, Repr

/-- Well-formedness of a month-truncated date: the month number lies in 1..12. -/
def YM.WF (d : YM) : Prop := 1 ≤ d.month ∧ d.month ≤ 12

instance (d : YM) : Decidable d.WF := by
  unfold YM.WF; infer_instance

/-- Linear encoding of a calendar month, used to compare dates. -/
def YM.idx (d : YM) : Nat := d.year * 12 + d.month

/-- Advance a month-truncated date by `k` calendar months, carrying over
into the year component. -/
def YM.addMonths (d : YM) (k : Nat) : YM :=
  let t := d.year * 12 + (d.month - 1) + k
  ⟨t / 12, t % 12 + 1⟩

/-- Embeds `_months_between` of `src/api/forecast.py`:
`(end.year - start.year) * 12 + (end.month - start.month)`. -/
def monthsBetween (s e : YM) : Int :=
  ((e.year : Int) - (s.year : Int)) * 12 + ((e.month : Int) - (s.month : Int))

/-- One observed or forecast price point: a region, a month-truncated
date and a price.  This is one row of the regional monthly series. -/
structure PricePoint where
  region : String
  date : YM
  price : ℚ
deriving DecidableEq, Repr

/-- One emitted forecast row, with the output fields the API layer
serialises: region, current/forecast dates and prices, the price change,
the relative change (`none` is the null/NaN sentinel used when the
current price is zero) and the 1-based step index. -/
structure ForecastRecord where
  region : String
  current_date : YM
  forecast_date : YM
  current_price : ℚ
  forecast_price : ℚ
  price_change : ℚ
  pct_change : Option ℚ
  step : Nat
deriving DecidableEq, Repr

/-- Modelled from the spec: the feature configuration of
`mli_rice.features.FeatureConfig` (not under `src/`), reduced to what the
engine observes of it: the configured lag offsets and rolling-window
sizes, which determine how much trailing history a region needs. -/
structure FeatureConfig where
  lags : List Nat
  windows : List Nat
deriving DecidableEq, Repr

/-- Modelled from the spec: the minimum number of trailing observations a
region needs, `max(lags ∪ windows)` months of history. -/
def FeatureConfig.required (cfg : FeatureConfig) : Nat :=
  (cfg.lags ++ cfg.windows).foldr max 0

/-- Lexicographic comparison of character lists by code point. -/
def listLe : List Char → List Char → Bool
  | [], _ => true
  | _ :: _, [] => false
  | a :: as, b :: bs =>
    if a.val < b.val then true
    else if b.val < a.val then false
    else listLe as bs

/-- Lexicographic comparison of region names. -/
def strLe (a b : String) : Bool := listLe a.data b.data

/-- Insert a region name into an already sorted list of region names. -/
def insertSorted (a : String) : List String → List String
  | [] => [a]
  | b :: t => if strLe a b then a :: b :: t else b :: insertSorted a t

/-- Sort region names lexicographically (insertion sort). -/
def sortRegions (l : List String) : List String := l.foldr insertSorted []

/-- The sub-series of the regional monthly table belonging to one region. -/
def seriesFor (h : List PricePoint) (r : String) : List PricePoint :=
  h.filter (fun p => p.region == r)

/-- Modelled from the spec: a region has sufficient history when it has at
least one observation and at least `max(lags ∪ windows)` months of
trailing observations (`mli_rice.features` is not under `src/`). -/
def sufficientSeries (cfg : FeatureConfig) (s : List PricePoint) : Bool :=
  decide (0 < s.length) && decide (cfg.required ≤ s.length)

/-- The distinct region names of the history, in the deterministic
lexicographically sorted iteration order the engine uses. -/
def sortedRegions (h : List PricePoint) : List String :=
  sortRegions (h.map (fun p => p.region)).dedup

/-- The regions the engine forecasts: those of the history whose series
has sufficient history for the configured lags and windows. -/
def sufficientRegions (h : List PricePoint) (cfg : FeatureConfig) : List String :=
  (sortedRegions h).filter (fun r => sufficientSeries cfg (seriesFor h r))

/-- Per-region engine state: the region name, the last observed date of
the original history (forecast dates are computed from it), and the
region's current series split as all-but-most-recent point (`past`) plus
the most recent point (`cur`). -/
structure RegState where
  region : String
  lastObs : YM
  past : List PricePoint
  cur : PricePoint
deriving DecidableEq, Repr

/-- The full current series of a per-region state. -/
def RegState.series (rs : RegState) : List PricePoint := rs.past ++ [rs.cur]

/-- Initial per-region state built from that region's historical series
(`none` when the series is empty). -/
def initRS (h : List PricePoint) (r : String) : Option RegState :=
  match (seriesFor h r).getLast? with
  | some c => some ⟨r, c.date, (seriesFor h r).dropLast, c⟩
  | none => none

/-- Modelled from the spec: the engine's initial state, one accumulator
per region with sufficient history, in sorted region order.  Regions with
insufficient history are skipped and the others continue (the policy the
spec recommends). -/
def initState (h : List PricePoint) (cfg : FeatureConfig) : List RegState :=
  (sufficientRegions h cfg).filterMap (initRS h)

/-- Modelled from the spec: the ForecastRecord the engine emits for one
region at step `k`, computed from the region's state immediately before
the synthetic point is appended.  The forecast date is the region's last
observed date advanced by `k` calendar months; `pct_change` is the
null sentinel when the current price is zero. -/
def stepRecord (predict : List PricePoint → ℚ) (k : Nat) (rs : RegState) : ForecastRecord :=
  let p := predict rs.series
  { region := rs.region
    current_date := rs.cur.date
    forecast_date := rs.lastObs.addMonths k
    current_price := rs.cur.price
    forecast_price := p
    price_change := p - rs.cur.price
    pct_change := if rs.cur.price = 0 then none else some ((p - rs.cur.price) / rs.cur.price)
    step := k }

/-- Modelled from the spec: advancing one region past step `k`: the
predicted price is appended to the series as a synthetic point dated
`k` months after the last observed date, becoming the observed input of
the next step (the autoregressive property). -/
def stepAdvance (predict : List PricePoint → ℚ) (k : Nat) (rs : RegState) : RegState :=
  { rs with
    past := rs.series
    cur := ⟨rs.region, rs.lastObs.addMonths k, predict rs.series⟩ }

/-- The per-region series snapshot of an engine state, as handed to the
advisory layer. -/
def snapshotOf (st : List RegState) : List (String × List PricePoint) :=
  st.map (fun rs => (rs.region, rs.series))

/-- Modelled from the spec: the engine loop from step `k` for `rem` more
steps.  Each step records the snapshot of every region's series as of the
step, emits one ForecastRecord per region, and advances every region's
state; records are produced step-outer, region-inner. -/
def runSteps (predict : List PricePoint → ℚ) :
    Nat → Nat → List RegState →
    List ForecastRecord × List (List (String × List PricePoint))
  | _, 0, _ => ([], [])
  | k, rem + 1, st =>
    let out := runSteps predict (k + 1) rem (st.map (stepAdvance predict k))
    (st.map (stepRecord predict k) ++ out.1, snapshotOf st :: out.2)

/-- Modelled from the spec: `mli_rice.modeling.multi_step_forecast` (not
under `src/`).  Given the regional monthly history, the fitted pipeline
(opaque, per the spec an external already-fitted predictor composed with
the shared feature builder), a number of months and the feature
configuration, it returns the ForecastRecords of steps `1..months` in
(step ascending, sorted region) order together with the per-step
snapshots of every region's series. -/
def multiStepForecast (h : List PricePoint) (predict : List PricePoint → ℚ)
    (m : Nat) (cfg : FeatureConfig) :
    List ForecastRecord × List (List (String × List PricePoint)) :=
  runSteps predict 1 m (initState h cfg)

/-- The engine state after `i` further advances starting at step `k`
(specification device for reasoning about `runSteps`). -/
def stateAfter (predict : List PricePoint → ℚ) :
    Nat → Nat → List RegState → List RegState
  | _, 0, st => st
  | k, i + 1, st => stateAfter predict (k + 1) i (st.map (stepAdvance predict k))

/-- The last observed date of a region's historical series (reference
value; defaults to year 0 for a region absent from the history). -/
def regionLastObs (h : List PricePoint) (r : String) : YM :=
  match (seriesFor h r).getLast? with
  | some c => c.date
  | none => ⟨0, 1⟩

/-- The maximum date of the regional monthly table, embedding
`region_df["date"].max()` of `src/api/forecast.py` (year 0 on an empty
table). -/
def latestDate (h : List PricePoint) : YM :=
  h.foldl (fun acc p => if acc.idx < p.date.idx then p.date else acc) ⟨0, 1⟩

/-- A forecast request: the three query parameters of the `/` endpoint of
`src/api/forecast.py`. -/
structure Request where
  months : Nat
  target_year : Option Nat
  target_month : Option Nat
deriving DecidableEq, Repr

/-- The framework-level query validation of `src/api/forecast.py`:
`months` carries `ge=1, le=24`, `target_year` carries `ge=2000, le=2100`
and `target_month` carries `ge=1, le=12`; a request failing any of these
is rejected before the endpoint body runs. -/
def validateQuery (req : Request) : Bool :=
  decide (1 ≤ req.months) && decide (req.months ≤ 24) &&
  (match req.target_year with
   | none => true
   | some y => decide (2000 ≤ y) && decide (y ≤ 2100)) &&
  (match req.target_month with
   | none => true
   | some mo => decide (1 ≤ mo) && decide (mo ≤ 12))

/-- The detail payload of an HTTP 400 error raised by the endpoint body:
either the paired target parameters were malformed, or the target month
is not after the latest observation. -/
inductive Detail where
  | xorTarget : Detail
  | targetNotAfter : YM → Detail
deriving DecidableEq, Repr

/-- The error outcomes of the endpoint: a framework validation rejection
(HTTP 422), an HTTP 400 with a detail, or the RuntimeError raised by
`get_pipeline` when the trained model artifact is missing (the
PredictorUnavailable condition). -/
inductive ApiError where
  | validationError : ApiError
  | badRequest : Detail → ApiError
  | missingModel : ApiError
deriving DecidableEq, Repr

/-- The externally observable work of the endpoint, in order: reading the
historical series, loading the fitted predictor, and running the
multi-step forecast. -/
inductive Effect where
  | readHistory : Effect
  | loadPredictor : Effect
  | runForecast : Effect
deriving DecidableEq, Repr

/-- Process-wide state the endpoint reads: the cached regional monthly
history and the trained pipeline artifact (`none` when
`artifact_path` does not exist, in which case `get_pipeline` raises). -/
structure ServerState where
  history : List PricePoint
  artifact : Option (List PricePoint → ℚ)

/-- The JSON document returned by the endpoint on success
(`src/api/forecast.py` lines 107-114). -/
structure Response where
  latest_observation : YM
  months_requested : Nat
  months_generated : Nat
  target_date : Option YM
  result_count : Nat
  results : List ForecastRecord

/-- Embeds the `/` endpoint `forecast` of `src/api/forecast.py`: query
validation, then reading the history and loading the pipeline, the
malformed-pairing check, the target-date handling
(`months_to_generate = max(months, delta)` with `delta < 1` rejected),
the call to `multi_step_forecast`, and the filtering of the records to
the target date when one was supplied.  Alongside the outcome it returns
the ordered list of effects the request performed. -/
def forecastEndpoint (st : ServerState) (cfg : FeatureConfig) (req : Request) :
    Except ApiError Response × List Effect :=
  if validateQuery req then
    match st.artifact with
    | none => (Except.error ApiError.missingModel, [Effect.readHistory, Effect.loadPredictor])
    | some pipeline =>
      let lastObserved := latestDate st.history
      match req.target_year, req.target_month with
      | some y, some mo =>
        let targetDate : YM := ⟨y, mo⟩
        let delta := monthsBetween lastObserved targetDate
        if delta < 1 then
          (Except.error (ApiError.badRequest (Detail.targetNotAfter lastObserved)),
            [Effect.readHistory, Effect.loadPredictor])
        else
          let monthsToGenerate := max req.months delta.toNat
          let fc := multiStepForecast st.history pipeline monthsToGenerate cfg
          let results := fc.1.filter (fun fr => decide (fr.forecast_date = targetDate))
          (Except.ok
            { latest_observation := lastObserved
              months_requested := req.months
              months_generated := monthsToGenerate
              target_date := some targetDate
              result_count := results.length
              results := results },
            [Effect.readHistory, Effect.loadPredictor, Effect.runForecast])
      | none, none =>
        let fc := multiStepForecast st.history pipeline req.months cfg
        (Except.ok
          { latest_observation := lastObserved
            months_requested := req.months
            months_generated := req.months
            target_date := none
            result_count := fc.1.length
            results := fc.1 },
          [Effect.readHistory, Effect.loadPredictor, Effect.runForecast])
      | _, _ =>
        (Except.error (ApiError.badRequest Detail.xorTarget),
          [Effect.readHistory, Effect.loadPredictor])
  else (Except.error ApiError.validationError, [])

/-- Embeds the advisory wiring of `layout_forecasts` in `src/app.py`
(lines 130-132): for the selected step the advisory engine — an opaque
function `g`, since `mli_rice.rules.generate_advisories` is consumed as
an external component here — is applied to `histories[selected_step - 1]`
and to the predictions whose step equals the selected step. -/
def layoutAdvisories {A : Type} (g : List (String × List PricePoint) → List ForecastRecord → A)
    (predictions : List ForecastRecord)
    (histories : List (List (String × List PricePoint))) (k : Nat) : A :=
  g (histories.getD (k - 1) []) (predictions.filter (fun fr => fr.step == k))

/-! ### Concrete evaluation data -/

/-- A one-lag feature configuration used for concrete evaluation. -/
def exCfg : FeatureConfig := ⟨[1], []⟩

/-- A constant fitted pipeline used for concrete evaluation. -/
def exPredict : List PricePoint → ℚ := fun _ => 60

/-- A one-region, one-month history used for concrete evaluation. -/
def exHistory : List PricePoint := [⟨"A", ⟨2024, 1⟩, 50⟩]

/-- The initial engine state of region `A` over `exHistory`. -/
def exState : RegState := ⟨"A", ⟨2024, 1⟩, [], ⟨"A", ⟨2024, 1⟩, 50⟩⟩

/-- The single record of a one-month run over `exHistory`. -/
def exRecord : ForecastRecord := stepRecord exPredict 1 exState

/-- A server state with the history loaded and the model artifact present. -/
def exServer : ServerState := ⟨exHistory, some exPredict⟩

/-- A server state whose model artifact is missing. -/
def exServerNoModel : ServerState := ⟨exHistory, none⟩

/-- A malformed request supplying a target year without a target month. -/
def exReqXor : Request := ⟨1, some 2024, none⟩

/-- A plain in-bounds request with no target date. -/
def exReqPlain : Request := ⟨1, none, none⟩

/-- A request targeting 2024-03, two months past the example history. -/
def exReqTarget : Request := ⟨1, some 2024, some 3⟩

/-- A request targeting 2024-01, the latest observation itself. -/
def exReqTargetPast : Request := ⟨1, some 2024, some 1⟩

/-! ### Calendar arithmetic -/

theorem addMonths_WF (d : YM) (k : Nat) : (d.addMonths k).WF := by
  simp only [YM.addMonths, YM.WF]
  omega

theorem monthsBetween_addMonths (d : YM) (hm : 1 ≤ d.month) (k : Nat) :
    monthsBetween d (d.addMonths k) = k := by
  simp only [monthsBetween, YM.addMonths]
  omega

/-! ### The engine loop in closed form -/

theorem stateAfter_length (p : List PricePoint → ℚ) :
    ∀ (i k : Nat) (st : List RegState), (stateAfter p k i st).length = st.length := by
  intro i
  induction i with
  | zero => intro k st; rfl
  | succ n ih =>
    intro k st
    show (stateAfter p (k + 1) n (st.map (stepAdvance p k))).length = st.length
    rw [ih, List.length_map]

theorem stateAfter_regions (p : List PricePoint → ℚ) :
    ∀ (i k : Nat) (st : List RegState),
      (stateAfter p k i st).map (fun rs => rs.region) = st.map (fun rs => rs.region) := by
  intro i
  induction i with
  | zero => intro k st; rfl
  | succ n ih =>
    intro k st
    show (stateAfter p (k + 1) n (st.map (stepAdvance p k))).map (fun rs => rs.region) = _
    rw [ih, List.map_map]
    rfl

theorem stepAdvance_series (p : List PricePoint → ℚ) (k : Nat) (rs : RegState) :
    (stepAdvance p k rs).series = rs.series ++ [⟨rs.region, rs.lastObs.addMonths k, p rs.series⟩] := by
  rfl

theorem stateAfter_mem (p : List PricePoint → ℚ) :
    ∀ (i k : Nat) (st : List RegState) (rs : RegState), rs ∈ stateAfter p k i st →
      ∃ rs₀ ∈ st, rs.region = rs₀.region ∧ rs.lastObs = rs₀.lastObs ∧
        rs.series.length = rs₀.series.length + i := by
  intro i
  induction i with
  | zero =>
    intro k st rs hrs
    exact ⟨rs, hrs, rfl, rfl, rfl⟩
  | succ n ih =>
    intro k st rs hrs
    obtain ⟨rs₁, hrs₁, hreg, hobs, hlen⟩ := ih (k + 1) (st.map (stepAdvance p k)) rs hrs
    obtain ⟨rs₀, hrs₀, hadv⟩ := List.mem_map.mp hrs₁
    refine ⟨rs₀, hrs₀, ?_, ?_, ?_⟩
    · rw [hreg, ← hadv]; rfl
    · rw [hobs, ← hadv]; rfl
    · rw [hlen, ← hadv, stepAdvance_series, List.length_append]
      simp
      omega

theorem flatMap_fun_eq {α β : Type _} (l : List α) (f g : α → List β)
    (h : ∀ a, f a = g a) : l.flatMap f = l.flatMap g := by
  rw [funext h]

theorem map_fun_eq {α β : Type _} (l : List α) (f g : α → β)
    (h : ∀ a, f a = g a) : l.map f = l.map g := by
  rw [funext h]

theorem runSteps_eq (p : List PricePoint → ℚ) :
    ∀ (rem k : Nat) (st : List RegState),
      runSteps p k rem st =
        ((List.range rem).flatMap
          (fun i => (stateAfter p k i st).map (stepRecord p (k + i))),
         (List.range rem).map (fun i => snapshotOf (stateAfter p k i st))) := by
  intro rem
  induction rem with
  | zero => intro k st; rfl
  | succ n ih =>
    intro k st
    show (st.map (stepRecord p k) ++ (runSteps p (k + 1) n (st.map (stepAdvance p k))).1,
          snapshotOf st :: (runSteps p (k + 1) n (st.map (stepAdvance p k))).2) = _
    rw [ih (k + 1) (st.map (stepAdvance p k))]
    rw [List.range_succ_eq_map, List.flatMap_cons, List.flatMap_map, List.map_cons, List.map_map]
    rw [Prod.mk.injEq]
    refine ⟨?_, ?_⟩
    · congr 1
      apply flatMap_fun_eq
      intro i
      have hst : stateAfter p k (Nat.succ i) st =
          stateAfter p (k + 1) i (st.map (stepAdvance p k)) := rfl
      show (stateAfter p (k + 1) i (st.map (stepAdvance p k))).map (stepRecord p (k + 1 + i)) = _
      rw [← hst, show k + Nat.succ i = k + 1 + i by omega]
    · congr 1

/-! ### The initial engine state -/

theorem insertSorted_perm (a : String) (l : List String) :
    (insertSorted a l).Perm (a :: l) := by
  induction l with
  | nil => exact List.Perm.refl _
  | cons b t ih =>
    show (if strLe a b then a :: b :: t else b :: insertSorted a t).Perm _
    by_cases hab : strLe a b
    · rw [if_pos hab]
    · rw [if_neg hab]
      exact (ih.cons b).trans (List.Perm.swap a b t)

theorem sortRegions_perm (l : List String) : (sortRegions l).Perm l := by
  induction l with
  | nil => exact List.Perm.refl _
  | cons a t ih =>
    show (insertSorted a (sortRegions t)).Perm (a :: t)
    exact (insertSorted_perm a (sortRegions t)).trans (ih.cons a)

theorem sufficientRegions_nodup (h : List PricePoint) (cfg : FeatureConfig) :
    (sufficientRegions h cfg).Nodup := by
  apply List.Nodup.filter
  exact ((sortRegions_perm _).symm.nodup (List.nodup_dedup _))

theorem mem_sufficientRegions (h : List PricePoint) (cfg : FeatureConfig) (r : String)
    (hr : r ∈ sufficientRegions h cfg) :
    seriesFor h r ≠ [] ∧ cfg.required ≤ (seriesFor h r).length := by
  have hc := (List.mem_filter.mp hr).2
  simp only [sufficientSeries, Bool.and_eq_true, decide_eq_true_eq] at hc
  exact ⟨List.ne_nil_of_length_pos hc.1, hc.2⟩

theorem initState_region_eq (h : List PricePoint) (cfg : FeatureConfig) :
    (initState h cfg).map (fun rs => rs.region) = sufficientRegions h cfg := by
  unfold initState
  have key : ∀ l : List String, (∀ r ∈ l, seriesFor h r ≠ []) →
      (l.filterMap (initRS h)).map (fun rs => rs.region) = l := by
    intro l
    induction l with
    | nil => intro _; rfl
    | cons a t ih =>
      intro hall
      have hne : seriesFor h a ≠ [] := hall a (List.mem_cons_self a t)
      have hsome : initRS h a = some ⟨a, ((seriesFor h a).getLast hne).date,
          (seriesFor h a).dropLast, (seriesFor h a).getLast hne⟩ := by
        unfold initRS
        rw [List.getLast?_eq_getLast _ hne]
      rw [List.filterMap_cons, hsome, List.map_cons]
      rw [ih (fun r hrmem => hall r (List.mem_cons_of_mem a hrmem))]
  exact key _ (fun r hrmem => (mem_sufficientRegions h cfg r hrmem).1)

theorem initState_length (h : List PricePoint) (cfg : FeatureConfig) :
    (initState h cfg).length = (sufficientRegions h cfg).length := by
  rw [← initState_region_eq h cfg, List.length_map]

theorem mem_initState (h : List PricePoint) (cfg : FeatureConfig) (rs : RegState)
    (hrs : rs ∈ initState h cfg) :
    rs.region ∈ sufficientRegions h cfg ∧ rs.lastObs = regionLastObs h rs.region ∧
      rs.series = seriesFor h rs.region := by
  unfold initState at hrs
  obtain ⟨r, hrmem, hinit⟩ := List.mem_filterMap.mp hrs
  have hne : seriesFor h r ≠ [] := (mem_sufficientRegions h cfg r hrmem).1
  have hlast := List.getLast?_eq_getLast (seriesFor h r) hne
  have hsome : initRS h r = some ⟨r, ((seriesFor h r).getLast hne).date,
      (seriesFor h r).dropLast, (seriesFor h r).getLast hne⟩ := by
    unfold initRS
    rw [hlast]
  rw [hsome] at hinit
  have hrs_eq := Option.some.inj hinit
  subst hrs_eq
  refine ⟨hrmem, ?_, ?_⟩
  · show ((seriesFor h r).getLast hne).date = regionLastObs h r
    unfold regionLastObs
    rw [hlast]
  · show (seriesFor h r).dropLast ++ [(seriesFor h r).getLast hne] = seriesFor h r
    exact List.dropLast_append_getLast hne

theorem regionLastObs_WF (h : List PricePoint) (r : String)
    (hwf : ∀ pt ∈ h, pt.date.WF) (hne : seriesFor h r ≠ []) :
    (regionLastObs h r).WF := by
  unfold regionLastObs
  rw [List.getLast?_eq_getLast _ hne]
  exact hwf _ (List.mem_filter.mp (List.getLast_mem hne)).1

theorem filter_region_singleton (r : String) :
    ∀ st : List RegState, (st.map (fun rs => rs.region)).Nodup →
      r ∈ st.map (fun rs => rs.region) →
      ∃ rs₀ ∈ st, rs₀.region = r ∧ st.filter (fun rs => rs.region == r) = [rs₀] := by
  intro st
  induction st with
  | nil => intro _ hmem; simp at hmem
  | cons a t ih =>
    intro hnd hmem
    rw [List.map_cons, List.nodup_cons] at hnd
    by_cases har : a.region = r
    · refine ⟨a, List.mem_cons_self a t, har, ?_⟩
      rw [List.filter_cons, if_pos (by simp [har])]
      have hnil : t.filter (fun rs => rs.region == r) = [] := by
        rw [List.filter_eq_nil_iff]
        intro x hx hxr
        apply hnd.1
        rw [har, ← beq_iff_eq.mp hxr]
        exact List.mem_map.mpr ⟨x, hx, rfl⟩
      rw [hnil]
    · have hrmem : r ∈ t.map (fun rs => rs.region) := by
        rcases List.mem_cons.mp hmem with heq | hmem'
        · exact absurd heq.symm har
        · exact hmem'
      obtain ⟨rs₀, hrs₀, hreg, hfilt⟩ := ih hnd.2 hrmem
      refine ⟨rs₀, List.mem_cons_of_mem a hrs₀, hreg, ?_⟩
      rw [List.filter_cons, if_neg (by simp [har]), hfilt]

/-! ### Record lists in closed form -/

theorem runSteps_records_length (p : List PricePoint → ℚ) :
    ∀ (rem k : Nat) (st : List RegState), (runSteps p k rem st).1.length = rem * st.length := by
  intro rem
  induction rem with
  | zero => intro k st; simp [runSteps]
  | succ n ih =>
    intro k st
    show (st.map (stepRecord p k) ++ (runSteps p (k + 1) n (st.map (stepAdvance p k))).1).length = _
    rw [List.length_append, List.length_map, ih (k + 1) (st.map (stepAdvance p k)), List.length_map]
    ring

theorem flatMap_pure {α β : Type _} (l : List α) (f : α → β) :
    (l.flatMap (fun a => [f a])) = l.map f := by
  induction l with
  | nil => rfl
  | cons a t ih => rw [List.flatMap_cons, List.map_cons, ih]; rfl

theorem flatMap_range_if {β : Type _} (j : Nat) (L : Nat → List β) :
    ∀ m : Nat, j < m →
      (List.range m).flatMap (fun i => if i = j then L i else []) = L j := by
  intro m
  induction m with
  | zero => intro hj; omega
  | succ n ih =>
    intro hj
    rw [List.range_succ, List.flatMap_append, List.flatMap_singleton]
    by_cases hjn : j = n
    · have hnil : (List.range n).flatMap (fun i => if i = j then L i else []) = [] := by
        rw [List.flatMap_eq_nil_iff]
        intro i hi
        rw [if_neg]
        have := List.mem_range.mp hi
        omega
      rw [hnil, if_pos hjn.symm, hjn, List.nil_append]
    · rw [ih (by omega), if_neg (fun hcl => hjn hcl.symm), List.append_nil]

theorem mem_records_eq (h : List PricePoint) (p : List PricePoint → ℚ) (m : Nat)
    (cfg : FeatureConfig) (fr : ForecastRecord)
    (hfr : fr ∈ (multiStepForecast h p m cfg).1) :
    ∃ i rs, i < m ∧ rs ∈ stateAfter p 1 i (initState h cfg) ∧ fr = stepRecord p (1 + i) rs := by
  unfold multiStepForecast at hfr
  rw [runSteps_eq] at hfr
  obtain ⟨i, hi, hmem⟩ := List.mem_flatMap.mp hfr
  obtain ⟨rs, hrs, heq⟩ := List.mem_map.mp hmem
  exact ⟨i, rs, List.mem_range.mp hi, hrs, heq.symm⟩

theorem records_closed (h : List PricePoint) (p : List PricePoint → ℚ) (m : Nat)
    (cfg : FeatureConfig) :
    (multiStepForecast h p m cfg).1 =
      (List.range m).flatMap
        (fun i => (stateAfter p 1 i (initState h cfg)).map (stepRecord p (1 + i))) := by
  unfold multiStepForecast
  rw [runSteps_eq]

theorem snapshots_closed (h : List PricePoint) (p : List PricePoint → ℚ) (m : Nat)
    (cfg : FeatureConfig) :
    (multiStepForecast h p m cfg).2 =
      (List.range m).map (fun i => snapshotOf (stateAfter p 1 i (initState h cfg))) := by
  unfold multiStepForecast
  rw [runSteps_eq]

/-- C1: for a forecast over `m` months, each region with sufficient
history contributes records whose step values are exactly `1..m`, so it
has exactly `m` records, and the full record sequence has exactly `m`
times the number of such regions. -/
theorem forecast_counts_and_steps (h : List PricePoint) (p : List PricePoint → ℚ)
    (m : Nat) (cfg : FeatureConfig) (r : String) (hr : r ∈ sufficientRegions h cfg) :
    (((multiStepForecast h p m cfg).1.filter (fun fr => fr.region == r)).map
        (fun fr => fr.step)) = (List.range m).map (fun i => i + 1) ∧
    (multiStepForecast h p m cfg).1.length = m * (sufficientRegions h cfg).length := by
  constructor
  · rw [records_closed, List.filter_flatMap, List.map_flatMap]
    have hblock : ∀ i : Nat,
        (((stateAfter p 1 i (initState h cfg)).map (stepRecord p (1 + i))).filter
          (fun fr => fr.region == r)).map (fun fr => fr.step) = [i + 1] := by
      intro i
      rw [List.filter_map]
      have hcomp : ((fun fr => fr.region == r) ∘ stepRecord p (1 + i)) =
          fun rs => rs.region == r := rfl
      rw [hcomp]
      have hnd : ((stateAfter p 1 i (initState h cfg)).map (fun rs => rs.region)).Nodup := by
        rw [stateAfter_regions, initState_region_eq]
        exact sufficientRegions_nodup h cfg
      have hmem : r ∈ (stateAfter p 1 i (initState h cfg)).map (fun rs => rs.region) := by
        rw [stateAfter_regions, initState_region_eq]
        exact hr
      obtain ⟨rs₀, _, _, hfilt⟩ := filter_region_singleton r _ hnd hmem
      rw [hfilt]
      show [1 + i] = [i + 1]
      rw [Nat.add_comm]
    rw [flatMap_fun_eq _ _ (fun i => [i + 1]) hblock, flatMap_pure]
  · have hlen := runSteps_records_length p m 1 (initState h cfg)
    rw [initState_length] at hlen
    exact hlen

/-- C2: every emitted record's forecast date is its region's last
observed date advanced by exactly `step` calendar months; in particular
the calendar-month difference from the last observed date to the
forecast date is exactly the step index (dates carry no day component,
so this is independent of day-of-month). -/
theorem forecast_date_exact_months (h : List PricePoint) (p : List PricePoint → ℚ)
    (m : Nat) (cfg : FeatureConfig) (hwf : ∀ pt ∈ h, pt.date.WF) (fr : ForecastRecord)
    (hfr : fr ∈ (multiStepForecast h p m cfg).1) :
    fr.forecast_date = (regionLastObs h fr.region).addMonths fr.step ∧
    monthsBetween (regionLastObs h fr.region) fr.forecast_date = fr.step := by
  obtain ⟨i, rs, him, hrs, hfr_eq⟩ := mem_records_eq h p m cfg fr hfr
  subst hfr_eq
  obtain ⟨rs₀, hrs₀, hreg, hobs, _⟩ := stateAfter_mem p i 1 (initState h cfg) rs hrs
  obtain ⟨hsuffmem, hlast, _⟩ := mem_initState h cfg rs₀ hrs₀
  have hregion : (stepRecord p (1 + i) rs).region = rs₀.region := hreg
  have hlastObs : rs.lastObs = regionLastObs h rs₀.region := by rw [hobs, hlast]
  have hfdate : (stepRecord p (1 + i) rs).forecast_date = rs.lastObs.addMonths (1 + i) := rfl
  have hstep : (stepRecord p (1 + i) rs).step = 1 + i := rfl
  constructor
  · rw [hfdate, hstep, hregion, hlastObs]
  · rw [hfdate, hstep, hregion, hlastObs]
    apply monthsBetween_addMonths
    exact (regionLastObs_WF h rs₀.region hwf
      (mem_sufficientRegions h cfg rs₀.region hsuffmem).1).1

/-- C3: for every emitted record, `price_change` is
`forecast_price - current_price`; when the current price is nonzero
`pct_change` is exactly `(forecast_price - current_price) / current_price`,
and when the current price is zero it is the `none` sentinel rather than
a division fault. -/
theorem pct_change_semantics (h : List PricePoint) (p : List PricePoint → ℚ)
    (m : Nat) (cfg : FeatureConfig) (fr : ForecastRecord)
    (hfr : fr ∈ (multiStepForecast h p m cfg).1) :
    fr.price_change = fr.forecast_price - fr.current_price ∧
    (fr.current_price = 0 → fr.pct_change = none) ∧
    (fr.current_price ≠ 0 →
      fr.pct_change = some ((fr.forecast_price - fr.current_price) / fr.current_price)) := by
  obtain ⟨i, rs, _, _, hfr_eq⟩ := mem_records_eq h p m cfg fr hfr
  subst hfr_eq
  refine ⟨rfl, ?_, ?_⟩
  · intro h0
    have h0c : rs.cur.price = 0 := h0
    show (if rs.cur.price = 0 then none
          else some ((p rs.series - rs.cur.price) / rs.cur.price)) = none
    rw [if_pos h0c]
  · intro h0
    have h0c : ¬rs.cur.price = 0 := h0
    show (if rs.cur.price = 0 then none
          else some ((p rs.series - rs.cur.price) / rs.cur.price)) = some _
    rw [if_neg h0c]
    rfl

/-- C6: the forecast is a pure function of its inputs, so two runs on
identical inputs return identical output, and the (step, region) sequence
of the records has the deterministic closed form of step-ascending blocks
each listing the sufficient regions in their fixed sorted order. -/
theorem forecast_deterministic_ordering (h : List PricePoint) (p : List PricePoint → ℚ)
    (m : Nat) (cfg : FeatureConfig) :
    (multiStepForecast h p m cfg).1.map (fun fr => (fr.step, fr.region)) =
      (List.range m).flatMap (fun i => (sufficientRegions h cfg).map (fun r => (i + 1, r))) ∧
    ∀ (h₂ : List PricePoint) (p₂ : List PricePoint → ℚ) (m₂ : Nat) (cfg₂ : FeatureConfig),
      h = h₂ → p = p₂ → m = m₂ → cfg = cfg₂ →
      multiStepForecast h p m cfg = multiStepForecast h₂ p₂ m₂ cfg₂ := by
  constructor
  · rw [records_closed, List.map_flatMap]
    apply flatMap_fun_eq
    intro i
    rw [List.map_map]
    have hcomp : ((fun fr => (fr.step, fr.region)) ∘ stepRecord p (1 + i)) =
        ((fun r => (1 + i, r)) ∘ fun rs : RegState => rs.region) := rfl
    rw [hcomp, ← List.map_map, stateAfter_regions, initState_region_eq, Nat.add_comm 1 i]
  · intro h₂ p₂ m₂ cfg₂ e1 e2 e3 e4
    subst e1; subst e2; subst e3; subst e4
    rfl

/-- C7: for a selected step `k` within the run, the advisory layer is
applied to exactly the engine's step-`k` history snapshot (index `k - 1`
of the snapshot sequence) and to exactly the step-`k` records; that
snapshot extends each region's history by only the `k - 1` earlier
forecast points, never the fully extended series. -/
theorem advisory_inputs_per_step {A : Type} (g : List (String × List PricePoint) → List ForecastRecord → A)
    (h : List PricePoint) (p : List PricePoint → ℚ) (m : Nat) (cfg : FeatureConfig)
    (k : Nat) (hk1 : 1 ≤ k) (hkm : k ≤ m) :
    layoutAdvisories g (multiStepForecast h p m cfg).1 (multiStepForecast h p m cfg).2 k =
      g (snapshotOf (stateAfter p 1 (k - 1) (initState h cfg)))
        ((stateAfter p 1 (k - 1) (initState h cfg)).map (stepRecord p k)) ∧
    ∀ pr ∈ snapshotOf (stateAfter p 1 (k - 1) (initState h cfg)),
      pr.2.length = (seriesFor h pr.1).length + (k - 1) := by
  have hhist : (multiStepForecast h p m cfg).2.getD (k - 1) [] =
      snapshotOf (stateAfter p 1 (k - 1) (initState h cfg)) := by
    rw [snapshots_closed, List.getD_eq_getElem?_getD, List.getElem?_map,
      List.getElem?_range (show k - 1 < m by omega)]
    rfl
  have hfilt : (multiStepForecast h p m cfg).1.filter (fun fr => fr.step == k) =
      (stateAfter p 1 (k - 1) (initState h cfg)).map (stepRecord p k) := by
    rw [records_closed, List.filter_flatMap]
    have hpoint : ∀ i : Nat,
        ((stateAfter p 1 i (initState h cfg)).map (stepRecord p (1 + i))).filter
            (fun fr => fr.step == k) =
          (if i = k - 1
           then (stateAfter p 1 i (initState h cfg)).map (stepRecord p (1 + i))
           else []) := by
      intro i
      by_cases hik : i = k - 1
      · rw [if_pos hik, List.filter_eq_self.mpr]
        intro fr hfrmem
        obtain ⟨rs, _, hfr⟩ := List.mem_map.mp hfrmem
        have hstep : fr.step = 1 + i := by rw [← hfr]; rfl
        rw [beq_iff_eq, hstep]
        omega
      · rw [if_neg hik, List.filter_eq_nil_iff]
        intro fr hfrmem hbeq
        obtain ⟨rs, _, hfr⟩ := List.mem_map.mp hfrmem
        have hstep : fr.step = 1 + i := by rw [← hfr]; rfl
        have h1 : fr.step = k := beq_iff_eq.mp hbeq
        omega
    rw [flatMap_fun_eq _ _ _ hpoint, flatMap_range_if (k - 1) _ m (by omega),
      show 1 + (k - 1) = k by omega]
  constructor
  · show g ((multiStepForecast h p m cfg).2.getD (k - 1) [])
        ((multiStepForecast h p m cfg).1.filter (fun fr => fr.step == k)) = _
    rw [hhist, hfilt]
  · intro pr hpr
    obtain ⟨rs, hrs, hpr_eq⟩ := List.mem_map.mp hpr
    subst hpr_eq
    obtain ⟨rs₀, hrs₀, hreg, _, hlen⟩ := stateAfter_mem p (k - 1) 1 (initState h cfg) rs hrs
    obtain ⟨_, _, hser⟩ := mem_initState h cfg rs₀ hrs₀
    show rs.series.length = (seriesFor h rs.region).length + (k - 1)
    rw [hreg, ← hser]
    exact hlen

/-! ### The API endpoint -/

theorem validateQuery_months (req : Request) (hv : validateQuery req = true) :
    1 ≤ req.months ∧ req.months ≤ 24 := by
  simp only [validateQuery, Bool.and_eq_true, decide_eq_true_eq] at hv
  exact ⟨hv.1.1.1, hv.1.1.2⟩

/-- C4: a request whose `months` lies outside 1..24 is rejected by the
query validation with no effect performed: the history is not read and
the predictor is not loaded or invoked. -/
theorem months_out_of_bounds_rejected (st : ServerState) (cfg : FeatureConfig)
    (req : Request) (hm : ¬(1 ≤ req.months ∧ req.months ≤ 24)) :
    forecastEndpoint st cfg req = (Except.error ApiError.validationError, []) := by
  have hv : validateQuery req = false := by
    cases hvb : validateQuery req
    · rfl
    · exact absurd (validateQuery_months req hvb) hm
  simp [forecastEndpoint, hv]

/-- C5: a request supplying exactly one of `target_year` and
`target_month` always ends in an error and never runs the forecast; when
it passes query validation and the predictor artifact is loaded, the
error is precisely the HTTP 400 malformed-pairing rejection. -/
theorem malformed_target_pair_rejected (st : ServerState) (cfg : FeatureConfig)
    (req : Request) (hx : req.target_year.isSome ≠ req.target_month.isSome) :
    (∃ e, (forecastEndpoint st cfg req).1 = Except.error e) ∧
    Effect.runForecast ∉ (forecastEndpoint st cfg req).2 ∧
    (validateQuery req = true → ∀ pl, st.artifact = some pl →
      forecastEndpoint st cfg req =
        (Except.error (ApiError.badRequest Detail.xorTarget),
         [Effect.readHistory, Effect.loadPredictor])) := by
  cases hv : validateQuery req with
  | false =>
    have hres : forecastEndpoint st cfg req = (Except.error ApiError.validationError, []) := by
      simp [forecastEndpoint, hv]
    refine ⟨⟨ApiError.validationError, by rw [hres]⟩, by rw [hres]; simp, ?_⟩
    intro hv' _ _
    cases hv'
  | true =>
    cases ha : st.artifact with
    | none =>
      have hres : forecastEndpoint st cfg req =
          (Except.error ApiError.missingModel, [Effect.readHistory, Effect.loadPredictor]) := by
        simp [forecastEndpoint, hv, ha]
      refine ⟨⟨ApiError.missingModel, by rw [hres]⟩, by rw [hres]; simp, ?_⟩
      intro _ pl hpl
      cases hpl
    | some pipeline =>
      have hres : forecastEndpoint st cfg req =
          (Except.error (ApiError.badRequest Detail.xorTarget),
           [Effect.readHistory, Effect.loadPredictor]) := by
        cases hty : req.target_year with
        | none =>
          cases htm : req.target_month with
          | none =>
            rw [hty, htm] at hx
            simp at hx
          | some mo => simp [forecastEndpoint, hv, ha, hty, htm]
        | some y =>
          cases htm : req.target_month with
          | none => simp [forecastEndpoint, hv, ha, hty, htm]
          | some mo =>
            rw [hty, htm] at hx
            simp at hx
      exact ⟨⟨ApiError.badRequest Detail.xorTarget, by rw [hres]⟩,
        by rw [hres]; simp, fun _ _ _ => hres⟩

/-- C8: with the trained model artifact missing, every request that
reaches the handler fails with the missing-model condition before any
forecasting work, and in all cases no forecast is run and the request
errors out. -/
theorem missing_model_fails_whole_request (st : ServerState) (cfg : FeatureConfig)
    (req : Request) (ha : st.artifact = none) :
    (∃ e, (forecastEndpoint st cfg req).1 = Except.error e) ∧
    Effect.runForecast ∉ (forecastEndpoint st cfg req).2 ∧
    (validateQuery req = true →
      forecastEndpoint st cfg req =
        (Except.error ApiError.missingModel, [Effect.readHistory, Effect.loadPredictor])) := by
  cases hv : validateQuery req with
  | false =>
    have hres : forecastEndpoint st cfg req = (Except.error ApiError.validationError, []) := by
      simp [forecastEndpoint, hv]
    refine ⟨⟨ApiError.validationError, by rw [hres]⟩, by rw [hres]; simp, ?_⟩
    intro hv'
    cases hv'
  | true =>
    have hres : forecastEndpoint st cfg req =
        (Except.error ApiError.missingModel, [Effect.readHistory, Effect.loadPredictor]) := by
      simp [forecastEndpoint, hv, ha]
    exact ⟨⟨ApiError.missingModel, by rw [hres]⟩, by rw [hres]; simp, fun _ => hres⟩

/-- C10: with both target components supplied but the target month not
strictly after the latest observation (calendar difference below 1), the
request is rejected with the HTTP 400 target error and no forecast is
run. -/
theorem target_not_after_rejected (st : ServerState) (cfg : FeatureConfig) (req : Request)
    (y mo : Nat) (pl : List PricePoint → ℚ)
    (hv : validateQuery req = true) (ha : st.artifact = some pl)
    (hy : req.target_year = some y) (hmo : req.target_month = some mo)
    (hd : monthsBetween (latestDate st.history) ⟨y, mo⟩ < 1) :
    forecastEndpoint st cfg req =
      (Except.error (ApiError.badRequest (Detail.targetNotAfter (latestDate st.history))),
       [Effect.readHistory, Effect.loadPredictor]) ∧
    Effect.runForecast ∉ (forecastEndpoint st cfg req).2 := by
  have hres : forecastEndpoint st cfg req =
      (Except.error (ApiError.badRequest (Detail.targetNotAfter (latestDate st.history))),
       [Effect.readHistory, Effect.loadPredictor]) := by
    simp [forecastEndpoint, hv, ha, hy, hmo, hd]
  exact ⟨hres, by rw [hres]; simp⟩

/-- C9: when both target components are supplied and the target is after
the latest observation, the response reports
`months_generated = max(months, calendar difference)` and its results are
exactly the generated records whose forecast date equals the target; with
no target supplied, `months_generated = months` and the results are the
full unfiltered record list. -/
theorem target_months_and_filtering (st : ServerState) (cfg : FeatureConfig) (req : Request)
    (y mo : Nat) (pl : List PricePoint → ℚ)
    (hv : validateQuery req = true) (ha : st.artifact = some pl) :
    (req.target_year = some y → req.target_month = some mo →
      1 ≤ monthsBetween (latestDate st.history) ⟨y, mo⟩ →
      (forecastEndpoint st cfg req).1 = Except.ok
        { latest_observation := latestDate st.history
          months_requested := req.months
          months_generated :=
            max req.months (monthsBetween (latestDate st.history) ⟨y, mo⟩).toNat
          target_date := some ⟨y, mo⟩
          result_count :=
            ((multiStepForecast st.history pl
                (max req.months (monthsBetween (latestDate st.history) ⟨y, mo⟩).toNat)
                cfg).1.filter (fun fr => decide (fr.forecast_date = ⟨y, mo⟩))).length
          results :=
            (multiStepForecast st.history pl
                (max req.months (monthsBetween (latestDate st.history) ⟨y, mo⟩).toNat)
                cfg).1.filter (fun fr => decide (fr.forecast_date = ⟨y, mo⟩)) }) ∧
    (req.target_year = none → req.target_month = none →
      (forecastEndpoint st cfg req).1 = Except.ok
        { latest_observation := latestDate st.history
          months_requested := req.months
          months_generated := req.months
          target_date := none
          result_count := (multiStepForecast st.history pl req.months cfg).1.length
          results := (multiStepForecast st.history pl req.months cfg).1 }) := by
  constructor
  · intro hy hmo hd
    have hnd : ¬(monthsBetween (latestDate st.history) ⟨y, mo⟩ < 1) := by omega
    simp [forecastEndpoint, hv, ha, hy, hmo, hnd]
  · intro hy hmo
    simp [forecastEndpoint, hv, ha, hy, hmo]

/-! ### Concrete witnesses -/

theorem exRecords_eq : (multiStepForecast exHistory exPredict 1 exCfg).1 = [exRecord] := rfl

theorem forecast_counts_and_steps_witness :
    "A" ∈ sufficientRegions exHistory exCfg ∧
    ((((multiStepForecast exHistory exPredict 2 exCfg).1.filter
        (fun fr => fr.region == "A")).map (fun fr => fr.step)) =
      (List.range 2).map (fun i => i + 1) ∧
     (multiStepForecast exHistory exPredict 2 exCfg).1.length =
       2 * (sufficientRegions exHistory exCfg).length) :=
  ⟨by decide, forecast_counts_and_steps exHistory exPredict 2 exCfg "A" (by decide)⟩

theorem forecast_date_exact_months_witness :
    (∀ pt ∈ exHistory, pt.date.WF) ∧
    exRecord ∈ (multiStepForecast exHistory exPredict 1 exCfg).1 ∧
    (exRecord.forecast_date = (regionLastObs exHistory exRecord.region).addMonths exRecord.step ∧
     monthsBetween (regionLastObs exHistory exRecord.region) exRecord.forecast_date =
       exRecord.step) := by
  have hwf : ∀ pt ∈ exHistory, pt.date.WF := by decide
  have hmem : exRecord ∈ (multiStepForecast exHistory exPredict 1 exCfg).1 := by
    rw [exRecords_eq]
    exact List.mem_singleton.mpr rfl
  exact ⟨hwf, hmem, forecast_date_exact_months exHistory exPredict 1 exCfg hwf exRecord hmem⟩

theorem pct_change_semantics_witness :
    exRecord ∈ (multiStepForecast exHistory exPredict 1 exCfg).1 ∧
    (exRecord.price_change = exRecord.forecast_price - exRecord.current_price ∧
     (exRecord.current_price = 0 → exRecord.pct_change = none) ∧
     (exRecord.current_price ≠ 0 →
       exRecord.pct_change = some
         ((exRecord.forecast_price - exRecord.current_price) / exRecord.current_price))) := by
  have hmem : exRecord ∈ (multiStepForecast exHistory exPredict 1 exCfg).1 := by
    rw [exRecords_eq]
    exact List.mem_singleton.mpr rfl
  exact ⟨hmem, pct_change_semantics exHistory exPredict 1 exCfg exRecord hmem⟩

theorem forecast_deterministic_ordering_witness :
    multiStepForecast exHistory exPredict 2 exCfg =
      multiStepForecast exHistory exPredict 2 exCfg :=
  (forecast_deterministic_ordering exHistory exPredict 2 exCfg).2
    exHistory exPredict 2 exCfg rfl rfl rfl rfl

theorem advisory_inputs_per_step_witness :
    layoutAdvisories (fun hist recs => (hist, recs))
        (multiStepForecast exHistory exPredict 2 exCfg).1
        (multiStepForecast exHistory exPredict 2 exCfg).2 1 =
      (snapshotOf (stateAfter exPredict 1 (1 - 1) (initState exHistory exCfg)),
       (stateAfter exPredict 1 (1 - 1) (initState exHistory exCfg)).map
         (stepRecord exPredict 1)) ∧
    ∀ pr ∈ snapshotOf (stateAfter exPredict 1 (1 - 1) (initState exHistory exCfg)),
      pr.2.length = (seriesFor exHistory pr.1).length + (1 - 1) :=
  advisory_inputs_per_step (fun hist recs => (hist, recs)) exHistory exPredict 2 exCfg 1
    (by decide) (by decide)

theorem months_out_of_bounds_rejected_witness :
    ¬(1 ≤ (⟨0, none, none⟩ : Request).months ∧ (⟨0, none, none⟩ : Request).months ≤ 24) ∧
    forecastEndpoint exServer exCfg ⟨0, none, none⟩ =
      (Except.error ApiError.validationError, []) :=
  ⟨by decide, months_out_of_bounds_rejected exServer exCfg ⟨0, none, none⟩ (by decide)⟩

theorem malformed_target_pair_rejected_witness :
    (∃ e, (forecastEndpoint exServer exCfg exReqXor).1 = Except.error e) ∧
    Effect.runForecast ∉ (forecastEndpoint exServer exCfg exReqXor).2 ∧
    (validateQuery exReqXor = true → ∀ pl, exServer.artifact = some pl →
      forecastEndpoint exServer exCfg exReqXor =
        (Except.error (ApiError.badRequest Detail.xorTarget),
         [Effect.readHistory, Effect.loadPredictor])) :=
  malformed_target_pair_rejected exServer exCfg exReqXor (by decide)

theorem missing_model_fails_whole_request_witness :
    (∃ e, (forecastEndpoint exServerNoModel exCfg exReqPlain).1 = Except.error e) ∧
    Effect.runForecast ∉ (forecastEndpoint exServerNoModel exCfg exReqPlain).2 ∧
    (validateQuery exReqPlain = true →
      forecastEndpoint exServerNoModel exCfg exReqPlain =
        (Except.error ApiError.missingModel, [Effect.readHistory, Effect.loadPredictor])) :=
  missing_model_fails_whole_request exServerNoModel exCfg exReqPlain rfl

theorem target_months_and_filtering_witness :
    (forecastEndpoint exServer exCfg exReqTarget).1 = Except.ok
      { latest_observation := latestDate exServer.history
        months_requested := exReqTarget.months
        months_generated :=
          max exReqTarget.months
            (monthsBetween (latestDate exServer.history) ⟨2024, 3⟩).toNat
        target_date := some ⟨2024, 3⟩
        result_count :=
          ((multiStepForecast exServer.history exPredict
              (max exReqTarget.months
                (monthsBetween (latestDate exServer.history) ⟨2024, 3⟩).toNat)
              exCfg).1.filter (fun fr => decide (fr.forecast_date = ⟨2024, 3⟩))).length
        results :=
          (multiStepForecast exServer.history exPredict
              (max exReqTarget.months
                (monthsBetween (latestDate exServer.history) ⟨2024, 3⟩).toNat)
              exCfg).1.filter (fun fr => decide (fr.forecast_date = ⟨2024, 3⟩)) } :=
  (target_months_and_filtering exServer exCfg exReqTarget 2024 3 exPredict (by decide) rfl).1
    rfl rfl (by decide)

theorem target_not_after_rejected_witness :
    forecastEndpoint exServer exCfg exReqTargetPast =
      (Except.error (ApiError.badRequest (Detail.targetNotAfter (latestDate exServer.history))),
       [Effect.readHistory, Effect.loadPredictor]) ∧
    Effect.runForecast ∉ (forecastEndpoint exServer exCfg exReqTargetPast).2 :=
  target_not_after_rejected exServer exCfg exReqTargetPast 2024 1 exPredict
    (by decide) rfl rfl rfl (by decide)

end RiceForecast
